import Mathlib

/-!
Shallow embedding of `ipp_macro_series_parser/comptes_nationaux/cn_extract_data.py`.

The source manipulates a pandas DataFrame holding stacked national-accounts
records with columns `code`, `institution`, `ressources`, `year`,
`description`, `value`.  We embed a DataFrame as a `List Row` (rows keep their
original order; a row stands for one indexed record).  Numeric values are
modelled as integers: the claims under verification only exercise integer
arithmetic, and floating point is out of scope.

Dictionaries (`entry_by_index`, the variable registry) are embedded as
association lists; Python's `dict.get` returning `None` both for a missing key
and for a key stored with value `None` is reproduced by flattening the two
cases in `entryGet`.

Pandas boolean-mask selection `result[df[key] == value]` aligns the mask built
from the full frame `df` with the index of the current subset `result`; since
`result` always holds a subset of `df`'s rows with their labels preserved,
this is equivalent to filtering `result` by its own field values, which is how
it is embedded here.
-/

set_option autoImplicit false

deriving instance DecidableEq for Except

namespace CnExtract

/-- One record of the stacked Comptabilité Nationale table. -/
structure Row where
  code : String
  institution : String
  ressources : Bool
  year : Int
  description : String
  value : Int
deriving Repr, DecidableEq

/-- Keys that can appear in an `entry_by_index` dictionary.  `other` covers
any key outside the known schema (such keys trigger a `KeyError` in the
equality branch of `look_up`). -/
inductive Key where
  | code
  | institution
  | ressources
  | year
  | description
  | value
  | formula
  | drop
  | other (s : String)
deriving Repr, DecidableEq

/-- Printable name of a key, used in error messages. -/
def keyName : Key → String
  | .code => "code"
  | .institution => "institution"
  | .ressources => "ressources"
  | .year => "year"
  | .description => "description"
  | .value => "value"
  | .formula => "formula"
  | .drop => "drop"
  | .other s => s

/-- A Python value stored in an `entry_by_index` dictionary. -/
inductive EVal where
  | str (s : String)
  | bool (b : Bool)
  | int (n : Int)
deriving Repr, DecidableEq

/-- Python truthiness of a non-`None` dictionary value. -/
def truthy : EVal → Bool
  | .str s => s ≠ ""
  | .bool b => b
  | .int n => n ≠ 0

/-- Python truthiness of an optional dictionary value (`None` is falsy). -/
def truthyOpt : Option EVal → Bool
  | none => false
  | some v => truthy v

/-- An `entry_by_index` dictionary: keys mapped to possibly-`None` values. -/
abbrev Entry := List (Key × Option EVal)

/-- A variable registry (`index_by_variable` / `variable_dictionary`). -/
abbrev Registry := List (String × Entry)

/-- Elementwise equality `df[key] == value` between a cell and a constraint
value; comparisons across types are `False` in pandas. -/
def evalEq : EVal → EVal → Bool
  | .str a, .str b => a == b
  | .bool a, .bool b => a == b
  | .int a, .int b => a == b
  | _, _ => false

/-- The column of the table named by a key, if it exists.  `formula` and
`drop` are not columns of the stacked table. -/
def columnOf : Key → Option (Row → EVal)
  | .code => some (fun r => .str r.code)
  | .institution => some (fun r => .str r.institution)
  | .ressources => some (fun r => .bool r.ressources)
  | .year => some (fun r => .int r.year)
  | .description => some (fun r => .str r.description)
  | .value => some (fun r => .int r.value)
  | _ => none

/-- Substring containment on character lists, embedding
`Series.str.contains` for the plain-substring patterns used by the
registries (regular-expression metacharacters are out of scope). -/
def listContainsSub (hay needle : List Char) : Bool :=
  match hay with
  | [] => needle.isEmpty
  | _ :: t => needle.isPrefixOf hay || listContainsSub t needle

/-- `dict.get k` for an `Entry`; a key present with value `None` and an
absent key are indistinguishable, as with Python `dict.get`. -/
def entryGet (e : Entry) (k : Key) : Option EVal :=
  match e.find? (fun p => p.1 == k) with
  | none => none
  | some p => p.2

/-- Registry lookup `registry[name]` (`none` models a `KeyError`). -/
def registryLookup (reg : Registry) (name : String) : Option Entry :=
  match reg.find? (fun p => p.1 == name) with
  | none => none
  | some p => some p.2

/-- The constraint loop of `look_up` (source lines 41-58).  `result` is the
current subset; `df` is the full frame the masks are built from (mask
alignment makes this equivalent to filtering `result` itself, see the header
comment).  A `None` value and the `drop` key are skipped; `description`
filters by substring; `formula` replaces the result by an empty frame; every
other key filters by equality, raising `KeyError` when it is not a column,
and an empty intermediate result is replaced by a fresh empty frame. -/
def applyConstraints (df : List Row) : List Row → Entry → Except String (List Row)
  | result, [] => .ok result
  | result, (k, v) :: rest =>
    match v with
    | none => applyConstraints df result rest
    | some value =>
      match k with
      | .drop => applyConstraints df result rest
      | .description =>
        match value with
        | .str s =>
          applyConstraints df
            (result.filter (fun r => listContainsSub r.description.toList s.toList)) rest
        | _ => .error "TypeError: description pattern must be a string"
      | .formula => applyConstraints df [] rest
      | k =>
        match columnOf k with
        | none => .error ("KeyError: " ++ keyName k)
        | some fld =>
          let r2 := result.filter (fun r => evalEq (fld r) value)
          applyConstraints df (if r2.isEmpty then ([] : List Row) else r2) rest

/-- `look_up(df, entry_by_index, years)`: restrict to the requested years,
then apply every constraint of the entry in order. -/
def lookUp (df : List Row) (entry : Entry) (years : List Int) : Except String (List Row) :=
  applyConstraints df (df.filter (fun r => years.contains r.year)) entry

/-- The consecutive integers `[lo, lo + n)`. -/
def yearsFrom : Int → Nat → List Int
  | _, 0 => []
  | lo, n + 1 => lo :: yearsFrom (lo + 1) n

/-- The default year range of `look_up`, `range(1949, 2014)`. -/
def defaultYears : List Int := yearsFrom 1949 65

/-- `DataFrame.drop_duplicates()`: keep the first occurrence of each row. -/
def dedupAux : List Row → List Row → List Row
  | _, [] => []
  | seen, r :: rs => if seen.contains r then dedupAux seen rs else r :: dedupAux (r :: seen) rs

/-- Exact-duplicate removal over a whole list of rows. -/
def dedupRows (l : List Row) : List Row := dedupAux [] l

/-- The accumulation loop of `look_many`: each entry is looked up with the
default year range (the source passes no `years` argument), the slices are
concatenated, and duplicates are dropped at the end. -/
def lookManyAux (df : List Row) : List Entry → List Row → Except String (List Row)
  | [], acc => .ok (dedupRows acc)
  | e :: es, acc =>
    match lookUp df e defaultYears with
    | .error msg => .error msg
    | .ok rows => lookManyAux df es (acc ++ rows)

/-- `look_many(df, entry_by_index_list)`; note the absence of a year-range
parameter, mirroring the source signature. -/
def lookMany (df : List Row) (entries : List Entry) : Except String (List Row) :=
  lookManyAux df entries []

/-! ### Formula parsing and evaluation

`get_or_construct_value` feeds the formula string to
`py_expression_eval.Parser`, reads off the referenced variable names with
`expr.variables()` (distinct identifiers in order of first appearance), and
finally evaluates the expression with Python `eval` against numpy values.
We embed this as a tokenizer, a shunting-yard translation to the same
reverse-Polish form the library produces, and a stack evaluator. -/

/-- Tokens of the little algebraic language: identifiers, integer literals,
the binary operators and parentheses. -/
inductive Tok where
  | num (n : Int)
  | var (s : String)
  | plus
  | minus
  | times
  | divide
  | pow
  | lparen
  | rparen
deriving Repr, DecidableEq

/-- Characters allowed inside an identifier. -/
def isIdentChar (c : Char) : Bool := c.isAlpha || c.isDigit || c == '_'

/-- Value of a digit string. -/
def digitsToNat (cs : List Char) : Nat :=
  cs.foldl (fun a c => a * 10 + (c.toNat - '0'.toNat)) 0

/-- Finish the token currently being read: `true` marks a number, `false`
an identifier; the characters are accumulated in reverse. -/
def flushTok : Bool × List Char → Tok
  | (true, revCs) => .num (Int.ofNat (digitsToNat revCs.reverse))
  | (false, revCs) => .var (String.mk revCs.reverse)

/-- Classify a character that starts a fresh token: an operator or
parenthesis token, the beginning of an identifier or number, a space, or a
tokenizer error. -/
def charAction (c : Char) : Except String (Option Tok × Option (Bool × List Char)) :=
  if c == ' ' then .ok (none, none)
  else if c == '+' then .ok (some .plus, none)
  else if c == '-' then .ok (some .minus, none)
  else if c == '*' then .ok (some .times, none)
  else if c == '/' then .ok (some .divide, none)
  else if c == '^' then .ok (some .pow, none)
  else if c == '(' then .ok (some .lparen, none)
  else if c == ')' then .ok (some .rparen, none)
  else if c.isAlpha || c == '_' then .ok (none, some (false, [c]))
  else if c.isDigit then .ok (none, some (true, [c]))
  else .error ("ParseError: unexpected character " ++ String.mk [c])

/-- Tokenizer over the characters of a formula: identifiers start with a
letter or underscore and continue with letters, digits and underscores;
numbers are digit runs. -/
def tokenizeAux : List Char → Option (Bool × List Char) → List Tok → Except String (List Tok)
  | [], none, acc => .ok acc.reverse
  | [], some cur, acc => .ok (flushTok cur :: acc).reverse
  | c :: cs, some (isNum, revCs), acc =>
    if (isNum && c.isDigit) || (!isNum && isIdentChar c) then
      tokenizeAux cs (some (isNum, c :: revCs)) acc
    else
      match charAction c with
      | .error e => .error e
      | .ok (optTok, newCur) =>
        tokenizeAux cs newCur
          (match optTok with
           | some t => t :: flushTok (isNum, revCs) :: acc
           | none => flushTok (isNum, revCs) :: acc)
  | c :: cs, none, acc =>
    match charAction c with
    | .error e => .error e
    | .ok (optTok, newCur) =>
      tokenizeAux cs newCur
        (match optTok with
         | some t => t :: acc
         | none => acc)

/-- Tokenize a formula string. -/
def tokenize (s : String) : Except String (List Tok) := tokenizeAux s.toList none []

/-- Distinct identifiers of a token stream in order of first appearance:
`expr.variables()` of `py_expression_eval`. -/
def extractVarsAux : List Tok → List String → List String
  | [], acc => acc.reverse
  | .var s :: ts, acc => if acc.contains s then extractVarsAux ts acc else extractVarsAux ts (s :: acc)
  | _ :: ts, acc => extractVarsAux ts acc

/-- The referenced variable names of a tokenized formula. -/
def extractVars (toks : List Tok) : List String := extractVarsAux toks []

/-- Operator precedence (`^` binds tightest, then `*` `/`, then `+` `-`). -/
def prec : Tok → Nat
  | .pow => 4
  | .times => 3
  | .divide => 3
  | .plus => 2
  | .minus => 2
  | _ => 0

/-- Is the token a binary operator? -/
def isBinOp : Tok → Bool
  | .plus | .minus | .times | .divide | .pow => true
  | _ => false

/-- Pop operators of higher (or equal, for the left-associative operators)
precedence onto the output before pushing `o`. -/
def popOps (o : Tok) : List Tok → List Tok → List Tok × List Tok
  | out, [] => (out, [])
  | out, top :: rest =>
    if isBinOp top && (prec o < prec top || (prec o == prec top && !(o == Tok.pow))) then
      popOps o (top :: out) rest
    else (out, top :: rest)

/-- Pop operators up to the matching opening parenthesis; `none` when the
parentheses are mismatched. -/
def popParen : List Tok → List Tok → Option (List Tok × List Tok)
  | _, [] => none
  | out, .lparen :: rest => some (out, rest)
  | out, top :: rest => popParen (top :: out) rest

/-- Shunting-yard translation of the token stream to reverse-Polish order,
the internal form `py_expression_eval` compiles formulas to. -/
def shunt : List Tok → List Tok → List Tok → Except String (List Tok)
  | [], out, ops =>
    if ops.contains Tok.lparen then .error "ParseError: mismatched parentheses"
    else .ok (out.reverse ++ ops)
  | t :: ts, out, ops =>
    match t with
    | .num n => shunt ts (.num n :: out) ops
    | .var s => shunt ts (.var s :: out) ops
    | .lparen => shunt ts out (.lparen :: ops)
    | .rparen =>
      match popParen out ops with
      | none => .error "ParseError: mismatched parentheses"
      | some (out2, ops2) => shunt ts out2 ops2
    | op =>
      match popOps op out ops with
      | (out2, ops2) => shunt ts out2 (op :: ops2)

/-- A numpy value bound to a variable during evaluation: a scalar (the
result of squeezing a one-element column) or a one-dimensional array. -/
inductive NVal where
  | int (n : Int)
  | arr (xs : List Int)
deriving Repr, DecidableEq

/-- `DataFrame.values.squeeze()` on a one-column frame: one element yields a
scalar, anything else stays an array. -/
def squeezeVals : List Int → NVal
  | [x] => .int x
  | xs => .arr xs

/-- Numpy broadcasting of a binary integer operation: scalars broadcast over
arrays, arrays must agree in length. -/
def broadcastOp (f : Int → Int → Int) : NVal → NVal → Except String NVal
  | .int a, .int b => .ok (.int (f a b))
  | .int a, .arr bs => .ok (.arr (bs.map (fun b => f a b)))
  | .arr as, .int b => .ok (.arr (as.map (fun a => f a b)))
  | .arr as, .arr bs =>
    if as.length == bs.length then .ok (.arr (List.zipWith f as bs))
    else .error "ValueError: operands could not be broadcast together"

/-- Does the value contain a zero (division guard)? -/
def hasZero : NVal → Bool
  | .int n => n == 0
  | .arr xs => xs.contains 0

/-- Apply a binary operator token.  Division follows the Python 2 floor
semantics of the source's integer arithmetic and division by zero raises;
a negative exponent would leave the integers and raises here. -/
def applyOp (t : Tok) (a b : NVal) : Except String NVal :=
  match t with
  | .plus => broadcastOp (fun x y => x + y) a b
  | .minus => broadcastOp (fun x y => x - y) a b
  | .times => broadcastOp (fun x y => x * y) a b
  | .divide =>
    if hasZero b then .error "ZeroDivisionError: division by zero"
    else broadcastOp Int.fdiv a b
  | .pow =>
    match b with
    | .int n => if n < 0 then .error "ValueError: negative exponent" else broadcastOp (fun x y => x ^ y.toNat) a b
    | .arr ns => if ns.any (fun n => n < 0) then .error "ValueError: negative exponent" else broadcastOp (fun x y => x ^ y.toNat) a b
  | _ => .error "ParseError: invalid expression"

/-- Stack evaluation of the reverse-Polish token stream against the
name-to-value binding `dico_value`, embedding `eval(formula, dico_value)`. -/
def evalRPNAux (env : List (String × NVal)) : List Tok → List NVal → Except String NVal
  | [], [v] => .ok v
  | [], _ => .error "ParseError: invalid expression"
  | .num n :: ts, stack => evalRPNAux env ts (.int n :: stack)
  | .var s :: ts, stack =>
    match env.find? (fun p => p.1 == s) with
    | none => .error ("NameError: name " ++ s ++ " is not defined")
    | some p => evalRPNAux env ts (p.2 :: stack)
  | op :: ts, b :: a :: stack =>
    match applyOp op a b with
    | .error e => .error e
    | .ok r => evalRPNAux env ts (r :: stack)
  | _ :: _, _ => .error "ParseError: invalid expression"

/-- Evaluate a reverse-Polish token stream. -/
def evalRPN (toks : List Tok) (env : List (String × NVal)) : Except String NVal :=
  evalRPNAux env toks []

/-! ### The variable resolver -/

/-- The result frame of `get_or_construct_value`: either the empty
`pandas.DataFrame()` (no column at all) or a single year-indexed column. -/
inductive Serie where
  | empty
  | col (name : String) (data : List (Int × Int))
deriving Repr, DecidableEq

/-- The year/value pairs of a serie (the empty frame has none). -/
def Serie.entries : Serie → List (Int × Int)
  | .empty => []
  | .col _ d => d

/-- Replace every non-overlapping occurrence of `pat`, scanning left to
right: the semantics of Python `str.replace` for a non-empty pattern.  (The
source only ever replaces variable names, which are non-empty.)  The `skip`
counter carries the characters of a just-matched occurrence that remain to
be dropped, keeping the recursion structural. -/
def listReplaceAux (pat rep : List Char) : List Char → Nat → List Char
  | [], _ => []
  | _ :: xs, skip + 1 => listReplaceAux pat rep xs skip
  | x :: xs, 0 =>
    if !pat.isEmpty && pat.isPrefixOf (x :: xs) then
      rep ++ listReplaceAux pat rep xs (pat.length - 1)
    else x :: listReplaceAux pat rep xs 0

/-- Replace every occurrence of a non-empty pattern in a character list. -/
def listReplace (l pat rep : List Char) : List Char := listReplaceAux pat rep l 0

/-- `s.replace(pat, rep)` on strings, via `listReplace` (the core
`String.replace` is not kernel-reducible, so we use our own). -/
def strReplace (s pat rep : String) : String :=
  String.mk (listReplace s.toList pat.toList rep.toList)

/-- The trivial direct definition synthesized when the registry argument is
`None`: `{variable_name: {code: variable_name}}`. -/
def synthEntry (name : String) : Entry := [(Key.code, some (EVal.str name))]

/-- The `for component in variables` loop of the derived branch of
`get_or_construct_value` (source lines 194-202).  For each referenced
variable it resolves the component, rebuilds `final_formula` from the
ORIGINAL formula `f` (the source writes `formula.replace(...)`, not
`final_formula.replace(...)`, so each pass discards the previous
substitutions), stores the squeezed value array in `dico_value` and
remembers the component's index.  `idx` and `ff` start out unassigned
(`none`), like the Python locals. -/
def resolveComponents (resolve : String → Except String (Serie × String)) (f : String) :
    List String → List (String × NVal) → Option (List Int) → Option String →
    Except String (List (String × NVal) × Option (List Int) × Option String)
  | [], dico, idx, ff => .ok (dico, idx, ff)
  | c :: rest, dico, idx, ff =>
    match resolve c with
    | .error e => .error e
    | .ok (vval, vformula) =>
      let ff2 := strReplace f c ("(" ++ vformula ++ ")")
      let dico2 := dico ++ [(c, squeezeVals (vval.entries.map (fun p => p.2)))]
      let idx2 := some (vval.entries.map (fun p => p.1))
      resolveComponents resolve f rest dico2 idx2 (some ff2)

/-- Build the final frame of the derived branch:
`pandas.DataFrame(data={variable_name: data}, index=index)`.  A scalar
broadcasts over the index; an array must match its length; and if the
component loop never ran, the Python local `index` was never assigned and a
`NameError` escapes. -/
def seriesOfData (name : String) (data : NVal) (idx : Option (List Int)) : Except String Serie :=
  match idx with
  | none => .error "NameError: name index is not defined"
  | some index =>
    match data with
    | .int n => .ok (.col name (index.map (fun y => (y, n))))
    | .arr xs =>
      if xs.length == index.length then .ok (.col name (index.zip xs))
      else .error "ValueError: array length does not match index length"

/-- `get_or_construct_value(df, variable_name, index_by_variable, years)`.
The `fuel` argument bounds the recursion depth (the source recurses on the
Python call stack and would loop forever on a cyclic registry; a
`RecursionError` stands for exhaustion).  A `None` registry synthesizes the
trivial direct definition; the variable's entry is then filtered against
the table, and a non-empty hit is returned directly.  Otherwise a falsy
formula yields the empty frame with an empty formula string, and a proper
formula is parsed, its components resolved recursively against the (possibly
synthesized) registry, and evaluated. -/
def getOrConstructValue :
    Nat → List Row → String → Option Registry → List Int → Except String (Serie × String)
  | 0, _, _, _, _ => .error "RecursionError: maximum recursion depth exceeded"
  | fuel + 1, df, variableName, registryOpt, years =>
    let registry := match registryOpt with
      | none => [(variableName, synthEntry variableName)]
      | some r => r
    match registryLookup registry variableName with
    | none => .error ("KeyError: " ++ variableName)
    | some varEntry =>
      let formulaOpt := entryGet varEntry Key.formula
      match lookUp df varEntry years with
      | .error e => .error e
      | .ok rows =>
        if rows.isEmpty then
          match formulaOpt with
          | none => .ok (.empty, "")
          | some (EVal.str f) =>
            if f = "" then .ok (.empty, "")
            else
              match tokenize f with
              | .error e => .error e
              | .ok toks =>
                match shunt toks [] [] with
                | .error e => .error e
                | .ok rpn =>
                  match resolveComponents
                      (fun c => getOrConstructValue fuel df c (some registry) years)
                      f (extractVars toks) [] none none with
                  | .error e => .error e
                  | .ok (dico, idxOpt, ffOpt) =>
                    match evalRPN rpn dico with
                    | .error e => .error e
                    | .ok data =>
                      match seriesOfData variableName data idxOpt with
                      | .error e => .error e
                      | .ok serie => .ok (serie, ffOpt.getD "")
          | some v =>
            if truthy v then .error "TypeError: formula must be a string"
            else .ok (.empty, "")
        else
          .ok (.col variableName (rows.map (fun r => (r.year, r.value))), variableName)

/-- The accumulation loop of `get_or_construct_data` (source lines 327-341):
resolve every variable, record the expanded formula of formula-bearing
variables under the human-readable name (underscores become spaces), and
concatenate the series of every variable that is not marked `drop` as a new
column (concatenating the empty frame adds no column). -/
def getOrConstructDataAux (fuel : Nat) (df : List Row) (registry : Registry) (years : List Int) :
    List (String × Entry) → List (String × List (Int × Int)) → List (String × String) →
    Except String (List (String × List (Int × Int)) × List (String × String))
  | [], result, formulas => .ok (result, formulas)
  | (vname, ventry) :: rest, result, formulas =>
    match getOrConstructValue fuel df vname (some registry) years with
    | .error e => .error e
    | .ok (values, vformula) =>
      let humanName := strReplace vname "_" " "
      let formulas2 :=
        if (entryGet ventry Key.formula).isSome then formulas ++ [(humanName, vformula)]
        else formulas
      let result2 :=
        if truthyOpt (entryGet ventry Key.drop) then result
        else
          match values with
          | .empty => result
          | .col n d => result ++ [(n, d)]
      getOrConstructDataAux fuel df registry years rest result2 formulas2

/-- `get_or_construct_data(df, variable_dictionary, years)`: the batch
resolver, iterating the registry in order.  The combined table is embedded
as the ordered list of its year-indexed columns. -/
def getOrConstructData (fuel : Nat) (df : List Row) (registry : Registry) (years : List Int) :
    Except String (List (String × List (Int × Int)) × List (String × String)) :=
  getOrConstructDataAux fuel df registry years registry [] []

/-- The column of a serie, if any (used to state the batch-resolver
theorems). -/
def serieColOpt : Serie → Option (String × List (Int × Int))
  | .empty => none
  | .col n d => some (n, d)

/-! ### Declarative row-matching predicate

The spec describes the Row Filter declaratively: a row is kept when it
matches every non-null constrained field, description by substring and every
other field by equality.  `constraintSat` renders that sentence; the Row
Filter theorem compares `lookUp` against a single filter by it. -/

/-- Does a row satisfy one constraint, in the sense of the specification?
A null value constrains nothing; `description` matches by substring
containment; any other field matches by equality of the row's cell with the
constraint value. -/
def constraintSat (r : Row) : Key × Option EVal → Bool
  | (_, none) => true
  | (k, some value) =>
    match k with
    | Key.description =>
      match value with
      | EVal.str s => listContainsSub r.description.toList s.toList
      | _ => false
    | k =>
      match columnOf k with
      | some fld => evalEq (fld r) value
      | none => false

/-- A constraint set ranging only over the fields of the table rows: every
key with a non-null value is a table column, and a non-null `description`
constraint is a string.  (Constraint sets carrying `formula` or `drop` do
not constrain rows by field matching; their behavior is settled
separately.) -/
def entryWF (e : Entry) : Bool :=
  e.all (fun p =>
    match p with
    | (_, none) => true
    | (Key.description, some (EVal.str _)) => true
    | (Key.description, some _) => false
    | (k, some _) => (columnOf k).isSome)

/-! ### Concrete instances

Small tables and registries used to evaluate the operations at explicit
inputs (witnesses and counterexamples), including the worked example of the
specification: registry `{X: {code: D41}, Y: {code: D42}, Z: {formula: X + Y}}`
over rows `(D41, 1999, 10)` and `(D42, 1999, 5)`. -/

/-- The two-row table of the specification's worked example. -/
def dfEx : List Row :=
  [⟨"D41", "S1", false, 1999, "interets", 10⟩,
   ⟨"D42", "S1", false, 1999, "dividendes", 5⟩]

/-- The registry of the specification's worked example. -/
def regEx : Registry :=
  [("X", [(Key.code, some (EVal.str "D41"))]),
   ("Y", [(Key.code, some (EVal.str "D42"))]),
   ("Z", [(Key.formula, some (EVal.str "X + Y"))])]

/-- The resolutions of the two direct variables of the worked example. -/
def resEx : String → Serie × String := fun x =>
  if x = "X" then (Serie.col "X" [(1999, 10)], "X")
  else (Serie.col "Y" [(1999, 5)], "Y")

/-- A table in which the direct filter `{code: D41}` matches two rows of the
same year with different values: an ambiguous direct lookup. -/
def dfAmb : List Row :=
  [⟨"D41", "S1", false, 1999, "", 10⟩,
   ⟨"D41", "S1", false, 1999, "", 20⟩]

/-- A registry with a single direct variable over the ambiguous table. -/
def regAmb : Registry := [("V", [(Key.code, some (EVal.str "D41"))])]

/-- A registry whose only variable's formula references the name `W`, which
is not a key of the registry. -/
def regMiss : Registry := [("Z", [(Key.formula, some (EVal.str "W + 1"))])]

/-- A batch-resolution registry: a plain direct variable, a dropped direct
variable, and a derived variable combining both. -/
def regB : Registry :=
  [("A", [(Key.code, some (EVal.str "D41"))]),
   ("B", [(Key.code, some (EVal.str "D42")), (Key.drop, some (EVal.bool true))]),
   ("C_net", [(Key.formula, some (EVal.str "A + B"))])]

/-- The resolutions of the three variables of `regB` over `dfEx`. -/
def resB : String → Serie × String := fun n =>
  if n = "A" then (Serie.col "A" [(1999, 10)], "A")
  else if n = "B" then (Serie.col "B" [(1999, 5)], "B")
  else (Serie.col "C_net" [(1999, 15)], "A + (B)")

/-- A table with one row inside the default year range and one outside. -/
def dfYr : List Row :=
  [⟨"D41", "S1", false, 2000, "", 7⟩,
   ⟨"D41", "S1", false, 1940, "", 3⟩]

/-! ### Helper lemmas -/

theorem ifEmpty_eq (l : List Row) : (if l.isEmpty then ([] : List Row) else l) = l := by
  cases l <;> rfl

theorem filter_true_id {α : Type} (l : List α) : l.filter (fun _ => true) = l := by
  induction l with
  | nil => rfl
  | cons a t ih => simp [List.filter, ih]

theorem filter_pair {α : Type} (p q : α → Bool) (l : List α) :
    (l.filter p).filter q = l.filter (fun a => p a && q a) := by
  induction l with
  | nil => rfl
  | cons a t ih =>
    cases hp : p a <;> cases hq : q a <;> simp [List.filter_cons, hp, hq, ih]

theorem filter_ext {α : Type} (p q : α → Bool) (l : List α) (h : ∀ a, p a = q a) :
    l.filter p = l.filter q := by
  have hpq : p = q := funext h
  rw [hpq]

/-- Splitting the constraint loop at a concatenation of constraint lists. -/
theorem applyConstraints_append (df : List Row) (e1 e2 : Entry) :
    ∀ res, applyConstraints df res (e1 ++ e2) =
      match applyConstraints df res e1 with
      | .ok r1 => applyConstraints df r1 e2
      | .error e => .error e := by
  induction e1 with
  | nil => intro res; rfl
  | cons head tail ih =>
    intro res
    obtain ⟨k, v⟩ := head
    cases v with
    | none => simpa [applyConstraints] using ih res
    | some value =>
      cases k with
      | description =>
        cases value with
        | str s => simpa [applyConstraints] using ih _
        | bool b => simp [applyConstraints]
        | int n => simp [applyConstraints]
      | formula => simpa [applyConstraints] using ih _
      | drop => simpa [applyConstraints] using ih _
      | code => simpa only [applyConstraints, columnOf] using ih _
      | institution => simpa only [applyConstraints, columnOf] using ih _
      | ressources => simpa only [applyConstraints, columnOf] using ih _
      | year => simpa only [applyConstraints, columnOf] using ih _
      | value => simpa only [applyConstraints, columnOf] using ih _
      | other s => simp [applyConstraints, columnOf]

/-- Rows surviving the constraint loop come from the starting subset. -/
theorem applyConstraints_subset (df : List Row) :
    ∀ (e : Entry) (res out : List Row), applyConstraints df res e = .ok out →
      ∀ r ∈ out, r ∈ res := by
  intro e
  induction e with
  | nil =>
    intro res out h r hr
    cases h
    exact hr
  | cons head tail ih =>
    intro res out h r hr
    obtain ⟨k, v⟩ := head
    cases v with
    | none => exact ih res out (by simpa [applyConstraints] using h) r hr
    | some value =>
      cases k with
      | description =>
        cases value with
        | str s =>
          have h2 := ih _ out (by simpa [applyConstraints] using h) r hr
          exact List.mem_of_mem_filter h2
        | bool b => simp [applyConstraints] at h
        | int n => simp [applyConstraints] at h
      | formula =>
        have h2 := ih _ out (by simpa [applyConstraints] using h) r hr
        simp at h2
      | drop => exact ih res out (by simpa [applyConstraints] using h) r hr
      | code =>
        simp only [applyConstraints, columnOf, ifEmpty_eq] at h
        exact List.mem_of_mem_filter (ih _ out h r hr)
      | institution =>
        simp only [applyConstraints, columnOf, ifEmpty_eq] at h
        exact List.mem_of_mem_filter (ih _ out h r hr)
      | ressources =>
        simp only [applyConstraints, columnOf, ifEmpty_eq] at h
        exact List.mem_of_mem_filter (ih _ out h r hr)
      | year =>
        simp only [applyConstraints, columnOf, ifEmpty_eq] at h
        exact List.mem_of_mem_filter (ih _ out h r hr)
      | value =>
        simp only [applyConstraints, columnOf, ifEmpty_eq] at h
        exact List.mem_of_mem_filter (ih _ out h r hr)
      | other s => simp [applyConstraints, columnOf] at h

/-- Once the running subset is empty, a successful constraint loop can only
return the empty subset. -/
theorem applyConstraints_empty (df : List Row) (e : Entry) (out : List Row)
    (h : applyConstraints df [] e = .ok out) : out = [] := by
  have hs := applyConstraints_subset df e [] out h
  cases out with
  | nil => rfl
  | cons r rs => exact absurd (hs r (by simp)) (by simp)

/-- A constraint list containing a non-null `formula` key can only produce
the empty subset, whatever the other constraints are. -/
theorem applyConstraints_formula_empty (df : List Row) (v : EVal) :
    ∀ (e : Entry) (res out : List Row), (Key.formula, some v) ∈ e →
      applyConstraints df res e = .ok out → out = [] := by
  intro e
  induction e with
  | nil =>
    intro res out hmem
    simp at hmem
  | cons head tail ih =>
    intro res out hmem h
    rcases List.mem_cons.mp hmem with heq | hmem2
    · subst heq
      simp only [applyConstraints] at h
      exact applyConstraints_empty df tail out h
    · obtain ⟨k, w⟩ := head
      cases w with
      | none => exact ih res out hmem2 (by simpa [applyConstraints] using h)
      | some value =>
        cases k with
        | description =>
          cases value with
          | str s => exact ih _ out hmem2 (by simpa [applyConstraints] using h)
          | bool b => simp [applyConstraints] at h
          | int n => simp [applyConstraints] at h
        | formula => exact ih _ out hmem2 (by simpa [applyConstraints] using h)
        | drop => exact ih res out hmem2 (by simpa [applyConstraints] using h)
        | code =>
          simp only [applyConstraints, columnOf, ifEmpty_eq] at h
          exact ih _ out hmem2 h
        | institution =>
          simp only [applyConstraints, columnOf, ifEmpty_eq] at h
          exact ih _ out hmem2 h
        | ressources =>
          simp only [applyConstraints, columnOf, ifEmpty_eq] at h
          exact ih _ out hmem2 h
        | year =>
          simp only [applyConstraints, columnOf, ifEmpty_eq] at h
          exact ih _ out hmem2 h
        | value =>
          simp only [applyConstraints, columnOf, ifEmpty_eq] at h
          exact ih _ out hmem2 h
        | other s => simp [applyConstraints, columnOf] at h

/-- On a well-formed constraint list the loop is exactly one declarative
filter by `constraintSat`. -/
theorem applyConstraints_wf (df : List Row) :
    ∀ (e : Entry), entryWF e = true →
      ∀ res, applyConstraints df res e = .ok (res.filter (fun r => e.all (fun p => constraintSat r p))) := by
  intro e
  induction e with
  | nil =>
    intro _ res
    simp only [applyConstraints, List.all_nil]
    rw [filter_true_id]
  | cons head tail ih =>
    intro hwf res
    obtain ⟨k, v⟩ := head
    simp only [entryWF, List.all_cons, Bool.and_eq_true] at hwf
    obtain ⟨hhead, hwf2⟩ := hwf
    have hwf2' : entryWF tail = true := hwf2
    cases v with
    | none =>
      simp only [applyConstraints]
      rw [ih hwf2' res]
      exact congrArg Except.ok (filter_ext _ _ _ (fun a => by simp [constraintSat]))
    | some value =>
      cases k with
      | description =>
        cases value with
        | str s =>
          simp only [applyConstraints]
          rw [ih hwf2' _, filter_pair]
          exact congrArg Except.ok (filter_ext _ _ _ (fun a => by simp [constraintSat]))
        | bool b => simp at hhead
        | int n => simp at hhead
      | formula => simp [columnOf] at hhead
      | drop => simp [columnOf] at hhead
      | code =>
        simp only [applyConstraints, columnOf, ifEmpty_eq]
        rw [ih hwf2' _, filter_pair]
        exact congrArg Except.ok (filter_ext _ _ _ (fun a => by simp [constraintSat, columnOf]))
      | institution =>
        simp only [applyConstraints, columnOf, ifEmpty_eq]
        rw [ih hwf2' _, filter_pair]
        exact congrArg Except.ok (filter_ext _ _ _ (fun a => by simp [constraintSat, columnOf]))
      | ressources =>
        simp only [applyConstraints, columnOf, ifEmpty_eq]
        rw [ih hwf2' _, filter_pair]
        exact congrArg Except.ok (filter_ext _ _ _ (fun a => by simp [constraintSat, columnOf]))
      | year =>
        simp only [applyConstraints, columnOf, ifEmpty_eq]
        rw [ih hwf2' _, filter_pair]
        exact congrArg Except.ok (filter_ext _ _ _ (fun a => by simp [constraintSat, columnOf]))
      | value =>
        simp only [applyConstraints, columnOf, ifEmpty_eq]
        rw [ih hwf2' _, filter_pair]
        exact congrArg Except.ok (filter_ext _ _ _ (fun a => by simp [constraintSat, columnOf]))
      | other s => simp [columnOf] at hhead

theorem yearsFrom_mem : ∀ (n : Nat) (lo y : Int), y ∈ yearsFrom lo n ↔ lo ≤ y ∧ y < lo + n := by
  intro n
  induction n with
  | zero =>
    intro lo y
    simp [yearsFrom]
  | succ m ih =>
    intro lo y
    simp only [yearsFrom, List.mem_cons, ih (lo + 1) y]
    constructor
    · rintro (rfl | h) <;> omega
    · intro h
      by_cases hy : y = lo
      · exact Or.inl hy
      · right
        omega

theorem defaultYears_mem (y : Int) : y ∈ defaultYears ↔ 1949 ≤ y ∧ y ≤ 2013 := by
  rw [defaultYears, yearsFrom_mem]
  omega

theorem dedupAux_mem : ∀ (l seen : List Row) (r : Row), r ∈ dedupAux seen l → r ∈ l := by
  intro l
  induction l with
  | nil =>
    intro seen r h
    simp [dedupAux] at h
  | cons x xs ih =>
    intro seen r h
    simp only [dedupAux] at h
    by_cases hc : seen.contains x
    · rw [if_pos hc] at h
      exact List.mem_cons_of_mem x (ih seen r h)
    · rw [if_neg hc] at h
      rcases List.mem_cons.mp h with rfl | h2
      · exact List.mem_cons_self r xs
      · exact List.mem_cons_of_mem x (ih (x :: seen) r h2)

theorem dedupRows_mem (l : List Row) (r : Row) (h : r ∈ dedupRows l) : r ∈ l :=
  dedupAux_mem l [] r h

/-- Rows returned by `look_up` come from the table and lie in the requested
year range. -/
theorem lookUp_mem (df : List Row) (e : Entry) (years : List Int) (out : List Row)
    (h : lookUp df e years = .ok out) :
    ∀ r ∈ out, r ∈ df ∧ years.contains r.year = true := by
  intro r hr
  have h2 := applyConstraints_subset df e _ out h r hr
  have h3 := List.mem_filter.mp h2
  exact ⟨h3.1, h3.2⟩

theorem lookManyAux_year (df : List Row) :
    ∀ (es : List Entry) (acc out : List Row),
      (∀ r ∈ acc, 1949 ≤ r.year ∧ r.year ≤ 2013) →
      lookManyAux df es acc = .ok out →
      ∀ r ∈ out, 1949 ≤ r.year ∧ r.year ≤ 2013 := by
  intro es
  induction es with
  | nil =>
    intro acc out hacc h r hr
    simp only [lookManyAux] at h
    cases h
    exact hacc r (dedupRows_mem acc r hr)
  | cons e rest ih =>
    intro acc out hacc h r hr
    simp only [lookManyAux] at h
    cases hlu : lookUp df e defaultYears with
    | error msg => rw [hlu] at h; cases h
    | ok rows =>
      rw [hlu] at h
      refine ih (acc ++ rows) out ?_ h r hr
      intro x hx
      rcases List.mem_append.mp hx with hx1 | hx2
      · exact hacc x hx1
      · have := (lookUp_mem df e defaultYears rows hlu x hx2).2
        exact (defaultYears_mem x.year).mp (by simpa [List.contains] using this)

/-- If some component of the loop fails to resolve, the whole loop fails. -/
theorem resolveComponents_err (resolve : String → Except String (Serie × String)) (f : String) :
    ∀ (comps : List String) (dico : List (String × NVal)) (idx : Option (List Int))
      (ff : Option String) (c : String), c ∈ comps →
      (∃ e, resolve c = .error e) →
      ∃ e2, resolveComponents resolve f comps dico idx ff = .error e2 := by
  intro comps
  induction comps with
  | nil =>
    intro _ _ _ c hc
    simp at hc
  | cons x rest ih =>
    intro dico idx ff c hc herr
    rcases List.mem_cons.mp hc with rfl | hc2
    · obtain ⟨e, he⟩ := herr
      exact ⟨e, by simp [resolveComponents, he]⟩
    · cases hx : resolve x with
      | error e => exact ⟨e, by simp [resolveComponents, hx]⟩
      | ok p =>
        obtain ⟨e2, he2⟩ := ih _ _ _ c hc2 herr
        exact ⟨e2, by simp [resolveComponents, hx]; exact he2⟩

/-- When every component resolves, the loop succeeds and its final formula
is the ORIGINAL formula with only the last component substituted. -/
theorem resolveComponents_last (resolve : String → Except String (Serie × String)) (f : String)
    (res : String → Serie × String) :
    ∀ (cs : List String) (c : String) (dico : List (String × NVal)) (idx : Option (List Int))
      (ff : Option String),
      (∀ x ∈ cs ++ [c], resolve x = .ok (res x)) →
      ∃ d i, resolveComponents resolve f (cs ++ [c]) dico idx ff =
        .ok (d, i, some (strReplace f c ("(" ++ (res c).2 ++ ")"))) := by
  intro cs
  induction cs with
  | nil =>
    intro c dico idx ff hres
    have hc := hres c (by simp)
    refine ⟨dico ++ [(c, squeezeVals ((res c).1.entries.map (fun p => p.2)))],
      some ((res c).1.entries.map (fun p => p.1)), ?_⟩
    simp [resolveComponents, hc]
  | cons x rest ih =>
    intro c dico idx ff hres
    have hx := hres x (by simp)
    have hres2 : ∀ y ∈ rest ++ [c], resolve y = .ok (res y) := by
      intro y hy
      exact hres y (by simpa using Or.inr hy)
    obtain ⟨d, i, hrec⟩ :=
      ih c (dico ++ [(x, squeezeVals ((res x).1.entries.map (fun p => p.2)))])
        (some ((res x).1.entries.map (fun p => p.1)))
        (some (strReplace f x ("(" ++ (res x).2 ++ ")"))) hres2
    refine ⟨d, i, ?_⟩
    simp only [List.cons_append, resolveComponents, hx]
    exact hrec

/-- Resolving a name missing from the registry fails, at any recursion
depth. -/
theorem getOrConstructValue_missing (fuel : Nat) (df : List Row) (c : String) (reg : Registry)
    (years : List Int) (h : registryLookup reg c = none) :
    ∃ e, getOrConstructValue fuel df c (some reg) years = .error e := by
  cases fuel with
  | zero => exact ⟨"RecursionError: maximum recursion depth exceeded", rfl⟩
  | succ n =>
    refine ⟨"KeyError: " ++ c, ?_⟩
    simp [getOrConstructValue, h]

/-- The one-variable registry synthesized for a `None` registry argument
finds its variable. -/
theorem registryLookup_synth (name : String) :
    registryLookup [(name, synthEntry name)] name = some (synthEntry name) := by
  simp [registryLookup, List.find?]

/-- The degenerate code lookup of a synthesized entry finds nothing when no
table row carries the variable name as its code within the requested
years. -/
theorem lookUp_synth_empty (df : List Row) (name : String) (years : List Int)
    (h : ∀ r ∈ df, r.code = name → years.contains r.year = false) :
    lookUp df (synthEntry name) years = .ok [] := by
  unfold lookUp synthEntry
  have hnil : (df.filter (fun r => years.contains r.year)).filter
      (fun r => evalEq (EVal.str r.code) (EVal.str name)) = [] := by
    rw [List.filter_eq_nil_iff]
    intro a ha
    have hmem := List.mem_filter.mp ha
    simp only [evalEq, beq_iff_eq]
    intro hcode
    have := h a hmem.1 hcode
    rw [this] at hmem
    exact absurd hmem.2 (by simp)
  simp only [applyConstraints, columnOf, hnil]
  rfl

/-- Specification of the batch-resolution loop: when every remaining
variable resolves, the loop appends one column per non-dropped variable
(empty series contribute nothing) and one renamed formula per
formula-bearing variable. -/
theorem getOrConstructDataAux_spec (fuel : Nat) (df : List Row) (registry : Registry)
    (years : List Int) (res : String → Serie × String) :
    ∀ (rest : List (String × Entry)) (result : List (String × List (Int × Int)))
      (formulas : List (String × String)),
      (∀ p ∈ rest, getOrConstructValue fuel df p.1 (some registry) years = .ok (res p.1)) →
      getOrConstructDataAux fuel df registry years rest result formulas = .ok
        (result ++ rest.filterMap (fun p =>
           if truthyOpt (entryGet p.2 Key.drop) then none else serieColOpt (res p.1).1),
         formulas ++ rest.filterMap (fun p =>
           if (entryGet p.2 Key.formula).isSome then
             some (strReplace p.1 "_" " ", (res p.1).2)
           else none)) := by
  intro rest
  induction rest with
  | nil =>
    intro result formulas _
    simp [getOrConstructDataAux]
  | cons head tail ih =>
    intro result formulas hres
    obtain ⟨vname, ventry⟩ := head
    have hhead := hres (vname, ventry) (by simp)
    have htail : ∀ p ∈ tail, getOrConstructValue fuel df p.1 (some registry) years = .ok (res p.1) := by
      intro p hp
      exact hres p (List.mem_cons_of_mem _ hp)
    simp only [getOrConstructDataAux, hhead]
    rw [ih _ _ htail]
    by_cases hdrop : truthyOpt (entryGet ventry Key.drop) = true
    · by_cases hform : (entryGet ventry Key.formula).isSome = true
      · simp [hdrop, hform, List.filterMap_cons]
      · simp [hdrop, hform, List.filterMap_cons]
    · by_cases hform : (entryGet ventry Key.formula).isSome = true
      · cases hcol : (res vname).1 with
        | empty => simp [hdrop, hform, hcol, List.filterMap_cons, serieColOpt]
        | col n d => simp [hdrop, hform, hcol, List.filterMap_cons, serieColOpt]
      · cases hcol : (res vname).1 with
        | empty => simp [hdrop, hform, hcol, List.filterMap_cons, serieColOpt]
        | col n d => simp [hdrop, hform, hcol, List.filterMap_cons, serieColOpt]

/-- When every non-dropped variable resolves to an actual column, the
combined table has exactly one column per non-dropped variable. -/
theorem filterMap_cols_length (res : String → Serie × String) :
    ∀ (l : List (String × Entry)),
      (∀ p ∈ l, truthyOpt (entryGet p.2 Key.drop) = false → (res p.1).1 ≠ Serie.empty) →
      (l.filterMap (fun p =>
         if truthyOpt (entryGet p.2 Key.drop) then none else serieColOpt (res p.1).1)).length =
        (l.filter (fun p => !truthyOpt (entryGet p.2 Key.drop))).length := by
  intro l
  induction l with
  | nil => intro _; rfl
  | cons head tail ih =>
    intro hnd
    have hhead := hnd head (by simp)
    have htail : ∀ p ∈ tail, truthyOpt (entryGet p.2 Key.drop) = false → (res p.1).1 ≠ Serie.empty := by
      intro p hp
      exact hnd p (List.mem_cons_of_mem _ hp)
    by_cases hdrop : truthyOpt (entryGet head.2 Key.drop) = true
    · simp [List.filterMap_cons, List.filter_cons, hdrop, ih htail]
    · have hne := hhead (by simpa using hdrop)
      cases hcol : (res head.1).1 with
      | empty => exact absurd hcol hne
      | col n d =>
        have hsome : serieColOpt (res head.1).1 = some (n, d) := by rw [hcol]; rfl
        simp [List.filterMap_cons, List.filter_cons, hdrop, hsome, ih htail]

/-! ### The claims -/

/-- Claim C2, counterexample.  The claim states that as soon as a non-null
equality constraint yields an empty subset, `look_up` returns an explicitly
empty result and skips all subsequent constraints.  The code has no such
short-circuit: after the `code` constraint empties the subset, the later
constraint on the unknown column `bogus` is still evaluated and raises
`KeyError` instead of returning the empty result. -/
theorem claim_C2_counterexample :
    lookUp dfEx [(Key.code, some (EVal.str "NOPE"))] [1999] = .ok [] ∧
    lookUp dfEx [(Key.code, some (EVal.str "NOPE")),
                 (Key.other "bogus", some (EVal.str "x"))] [1999] =
      .error "KeyError: bogus" :=
  ⟨rfl, rfl⟩

/-- Claim C2, amended.  Once a prefix of the constraint list has emptied the
running subset, the subset stays empty through the remaining constraints:
whenever the full call returns at all, it returns the explicitly empty
result.  (Subsequent constraints are still applied, so an ill-formed later
constraint can still raise, as the counterexample shows.) -/
theorem claim_C2_empty_persists (df : List Row) (e1 e2 : Entry) (years : List Int)
    (h1 : lookUp df e1 years = .ok [])
    (h2 : ∃ out, lookUp df (e1 ++ e2) years = .ok out) :
    lookUp df (e1 ++ e2) years = .ok [] := by
  obtain ⟨out, h⟩ := h2
  have hsplit := applyConstraints_append df e1 e2 (df.filter (fun r => years.contains r.year))
  unfold lookUp at h h1 ⊢
  rw [hsplit, h1] at h
  rw [hsplit, h1]
  have := applyConstraints_empty df e2 out h
  rw [h, this]

/-- Claim C2, witness: the `code` constraint empties the subset and the
benign later `institution` constraint leaves the final result empty. -/
theorem claim_C2_witness :
    lookUp dfEx ([(Key.code, some (EVal.str "NOPE"))] ++
      [(Key.institution, some (EVal.str "S1"))]) [1999] = .ok [] :=
  claim_C2_empty_persists dfEx [(Key.code, some (EVal.str "NOPE"))]
    [(Key.institution, some (EVal.str "S1"))] [1999] (by decide) ⟨[], by decide⟩

/-- Claim C4: on a constraint set whose non-null keys are table fields (with
string-valued description constraints), `look_up` returns exactly the rows
of the table whose year is in the requested years and which satisfy every
non-null constraint — description by substring containment, every other
field by equality. -/
theorem claim_C4_filter_semantics (df : List Row) (e : Entry) (years : List Int)
    (hwf : entryWF e = true) :
    lookUp df e years =
      .ok (df.filter (fun r =>
        years.contains r.year && e.all (fun p => constraintSat r p))) := by
  unfold lookUp
  rw [applyConstraints_wf df e hwf _, filter_pair]

/-- Claim C4, witness: an equality constraint on `code` combined with a
substring constraint on `description` selects exactly the matching row. -/
theorem claim_C4_witness :
    entryWF [(Key.code, some (EVal.str "D41")), (Key.description, some (EVal.str "ter"))] = true ∧
    lookUp dfEx [(Key.code, some (EVal.str "D41")), (Key.description, some (EVal.str "ter"))]
      [1999] = .ok [⟨"D41", "S1", false, 1999, "interets", 10⟩] := by
  refine ⟨by decide, ?_⟩
  rw [claim_C4_filter_semantics dfEx
    [(Key.code, some (EVal.str "D41")), (Key.description, some (EVal.str "ter"))] [1999]
    (by decide)]
  rfl

/-- Claim C5, counterexample.  The claim states that a constraint set
containing the key `formula` forces an empty result whatever value the key
holds, including a null value.  In the code the `if value is None: continue`
test precedes the formula test, so `{formula: None, code: D41}` filters by
code as if the formula key were absent and returns a non-empty result. -/
theorem claim_C5_counterexample :
    lookUp dfEx [(Key.formula, none), (Key.code, some (EVal.str "D41"))] [1999] =
      .ok [⟨"D41", "S1", false, 1999, "interets", 10⟩] ∧
    ([⟨"D41", "S1", false, 1999, "interets", 10⟩] : List Row) ≠ [] :=
  ⟨rfl, by decide⟩

/-- Claim C5, amended: a constraint set containing `formula` with a
NON-NULL value forces the result to empty, regardless of the other fields
(whenever the call returns at all); a null-valued `formula` key is skipped
like every other null constraint. -/
theorem claim_C5_formula_forces_empty (df : List Row) (entry : Entry) (years : List Int)
    (v : EVal) (hmem : (Key.formula, some v) ∈ entry)
    (h2 : ∃ out, lookUp df entry years = .ok out) :
    lookUp df entry years = .ok [] := by
  obtain ⟨out, h⟩ := h2
  have := applyConstraints_formula_empty df v entry _ out hmem h
  rw [h, this]

/-- Claim C5, witness: a formula-bearing constraint set returns the empty
result even though its `code` constraint alone would match a row. -/
theorem claim_C5_witness :
    lookUp dfEx [(Key.formula, some (EVal.str "X + Y")),
                 (Key.code, some (EVal.str "D41"))] [1999] = .ok [] :=
  claim_C5_formula_forces_empty dfEx
    [(Key.formula, some (EVal.str "X + Y")), (Key.code, some (EVal.str "D41"))] [1999]
    (EVal.str "X + Y") (by decide) ⟨[], by decide⟩

/-- Claim C10: `look_many` takes no year-range parameter and performs every
per-entry lookup with `look_up`'s built-in default range 1949..2013, so a
row whose year lies outside 1949..2013 never appears in a successful
result. -/
theorem claim_C10_default_years (df : List Row) (entries : List Entry) (out : List Row)
    (h : lookMany df entries = .ok out) :
    ∀ r ∈ out, 1949 ≤ r.year ∧ r.year ≤ 2013 :=
  lookManyAux_year df entries [] out (by simp) h

/-- Claim C10, witness: over a table holding years 2000 and 1940, the batch
lookup returns only the year-2000 row, whose year the theorem bounds. -/
theorem claim_C10_witness :
    1949 ≤ (⟨"D41", "S1", false, 2000, "", 7⟩ : Row).year ∧
    (⟨"D41", "S1", false, 2000, "", 7⟩ : Row).year ≤ 2013 :=
  claim_C10_default_years dfYr [[(Key.code, some (EVal.str "D41"))]]
    [⟨"D41", "S1", false, 2000, "", 7⟩] (by decide)
    (⟨"D41", "S1", false, 2000, "", 7⟩ : Row) (by decide)

/-- Claim C3, counterexample.  The claim states that an ambiguous direct
filter (several values for the same year) makes the resolver raise an
`AmbiguousMatchError`.  No such check exists: over the ambiguous table the
resolver silently returns a series with one entry per matching row,
duplicating the year 1999. -/
theorem claim_C3_counterexample :
    getOrConstructValue 1 dfAmb "V" (some regAmb) [1999] =
      .ok (Serie.col "V" [(1999, 10), (1999, 20)], "V") :=
  rfl

/-- Claim C3, amended.  The resolver performs no ambiguity detection:
whenever the direct filter yields a non-empty row set — including several
rows sharing a year — it returns the series holding one `(year, value)`
entry per row, named after the variable, with the variable's own name as
expanded formula, and raises nothing. -/
theorem claim_C3_direct_returns_all_rows (fuel : Nat) (df : List Row) (name : String)
    (reg : Registry) (years : List Int) (entry : Entry) (rows : List Row)
    (hentry : registryLookup reg name = some entry)
    (hlook : lookUp df entry years = .ok rows)
    (hne : rows ≠ []) :
    getOrConstructValue (fuel + 1) df name (some reg) years =
      .ok (Serie.col name (rows.map (fun r => (r.year, r.value))), name) := by
  have hempty : rows.isEmpty = false := by
    cases rows with
    | nil => exact absurd rfl hne
    | cons a l => rfl
  simp [getOrConstructValue, hentry, hlook, hempty]

/-- Claim C3, witness: the amended theorem applied to the ambiguous table,
where the direct filter yields two rows for the year 1999. -/
theorem claim_C3_witness :
    getOrConstructValue 1 dfAmb "V" (some regAmb) [1999] =
      .ok (Serie.col "V"
        (([⟨"D41", "S1", false, 1999, "", 10⟩, ⟨"D41", "S1", false, 1999, "", 20⟩] : List Row).map
          (fun r => (r.year, r.value))), "V") :=
  claim_C3_direct_returns_all_rows 0 dfAmb "V" regAmb [1999]
    [(Key.code, some (EVal.str "D41"))]
    [⟨"D41", "S1", false, 1999, "", 10⟩, ⟨"D41", "S1", false, 1999, "", 20⟩]
    (by decide) (by decide) (by decide)

/-- Claim C6, counterexample.  The claim states that an absent OR EMPTY
registry makes the resolver synthesize the trivial direct definition.  Only
the `None` case is handled (`if index_by_variable is None`): with the empty
registry the lookup `index_by_variable[variable_name]` raises `KeyError`
instead of synthesizing. -/
theorem claim_C6_counterexample :
    getOrConstructValue 1 dfEx "W" (some []) [1999] = .error "KeyError: W" :=
  rfl

/-- Claim C6, amended.  When the registry argument is `None` (absent), the
resolver synthesizes the trivial direct definition `{code: variable_name}`;
if additionally no table row carries the variable name as its code within
the requested years, it returns the empty series and the empty formula
string without raising.  (An empty registry instead raises a key lookup
error, as the counterexample shows.) -/
theorem claim_C6_none_registry (fuel : Nat) (df : List Row) (name : String) (years : List Int)
    (h : ∀ r ∈ df, r.code = name → years.contains r.year = false) :
    getOrConstructValue (fuel + 1) df name none years = .ok (Serie.empty, "") := by
  have hlook := lookUp_synth_empty df name years h
  have hfn : entryGet (synthEntry name) Key.formula = none := rfl
  simp [getOrConstructValue, registryLookup_synth, hlook, hfn]

/-- Claim C6, witness: the variable `W` appears in no row of the example
table, so a `None`-registry resolution of it yields the empty result. -/
theorem claim_C6_witness :
    getOrConstructValue 1 dfEx "W" none [1999] = .ok (Serie.empty, "") :=
  claim_C6_none_registry 0 dfEx "W" [1999] (by decide)

/-- Claim C7: when a variable's own filter finds no rows and its formula
references a name that is not a key of the registry, resolution of that
variable fails with an error (the unresolved reference surfaces as the
`KeyError` of the registry lookup) rather than returning a result. -/
theorem claim_C7_unresolved_reference (fuel : Nat) (df : List Row) (name : String)
    (reg : Registry) (years : List Int) (entry : Entry) (f : String) (toks : List Tok)
    (c : String)
    (hentry : registryLookup reg name = some entry)
    (hf : entryGet entry Key.formula = some (EVal.str f))
    (hne : f ≠ "")
    (hlook : lookUp df entry years = .ok [])
    (htok : tokenize f = .ok toks)
    (hc : c ∈ extractVars toks)
    (hmiss : registryLookup reg c = none) :
    ∃ e, getOrConstructValue (fuel + 1) df name (some reg) years = .error e := by
  cases hsh : shunt toks [] [] with
  | error e =>
    exact ⟨e, by simp [getOrConstructValue, hentry, hf, hne, hlook, htok, hsh]⟩
  | ok rpn =>
    obtain ⟨e2, he2⟩ := resolveComponents_err
      (fun x => getOrConstructValue fuel df x (some reg) years) f (extractVars toks)
      [] none none c hc (getOrConstructValue_missing fuel df c reg years hmiss)
    exact ⟨e2, by simp [getOrConstructValue, hentry, hf, hne, hlook, htok, hsh, he2]⟩

/-- Claim C7, witness: the registry maps `Z` to the formula `W + 1` and has
no key `W`; resolving `Z` errors. -/
theorem claim_C7_witness :
    ∃ e, getOrConstructValue 2 dfEx "Z" (some regMiss) [1999] = .error e :=
  claim_C7_unresolved_reference 1 dfEx "Z" regMiss [1999]
    [(Key.formula, some (EVal.str "W + 1"))] "W + 1"
    [Tok.var "W", Tok.plus, Tok.num 1] "W"
    (by decide) (by decide) (by decide) (by decide) (by decide) (by decide) (by decide)

/-- Claim C1, counterexample.  The claim states that the expanded formula
substitutes EVERY referenced variable, yielding `(X) + (Y)` on the worked
example.  The source rebuilds `final_formula` from the ORIGINAL formula on
every loop iteration (`formula.replace`, not `final_formula.replace`), so
only the last substitution survives: the example resolves to the series
`{1999: 15}` with formula `X + (Y)`, not `(X) + (Y)`. -/
theorem claim_C1_counterexample :
    getOrConstructValue 3 dfEx "Z" (some regEx) [1999] =
      .ok (Serie.col "Z" [(1999, 15)], "X + (Y)") ∧
    "X + (Y)" ≠ "(X) + (Y)" :=
  ⟨rfl, by decide⟩

/-- Claim C1, amended.  For a derived variable (formula present, direct
filter empty) whose referenced variables all resolve, the call either fails
or returns an expanded formula equal to the ORIGINAL formula with only the
LAST-parsed referenced variable replaced by its parenthesized expansion —
the substitutions do not accumulate; on the worked example the series is
`{1999: 15}` and the formula is `X + (Y)`. -/
theorem claim_C1_last_only_substitution (fuel : Nat) (df : List Row) (name : String)
    (reg : Registry) (years : List Int) (entry : Entry) (f : String) (toks : List Tok)
    (cs : List String) (c : String) (res : String → Serie × String)
    (hentry : registryLookup reg name = some entry)
    (hf : entryGet entry Key.formula = some (EVal.str f))
    (hne : f ≠ "")
    (hlook : lookUp df entry years = .ok [])
    (htok : tokenize f = .ok toks)
    (hvars : extractVars toks = cs ++ [c])
    (hres : ∀ x ∈ cs ++ [c], getOrConstructValue fuel df x (some reg) years = .ok (res x)) :
    (∃ e, getOrConstructValue (fuel + 1) df name (some reg) years = .error e) ∨
    (∃ s, getOrConstructValue (fuel + 1) df name (some reg) years =
       .ok (s, strReplace f c ("(" ++ (res c).2 ++ ")"))) := by
  cases hsh : shunt toks [] [] with
  | error e =>
    exact Or.inl ⟨e, by simp [getOrConstructValue, hentry, hf, hne, hlook, htok, hsh]⟩
  | ok rpn =>
    obtain ⟨d, i, hloop⟩ := resolveComponents_last
      (fun x => getOrConstructValue fuel df x (some reg) years) f res cs c [] none none hres
    cases heval : evalRPN rpn d with
    | error e =>
      refine Or.inl ⟨e, ?_⟩
      simp [getOrConstructValue, hentry, hf, hne, hlook, htok, hsh, hvars, hloop, heval]
    | ok data =>
      cases hser : seriesOfData name data i with
      | error e =>
        refine Or.inl ⟨e, ?_⟩
        simp [getOrConstructValue, hentry, hf, hne, hlook, htok, hsh, hvars, hloop, heval, hser]
      | ok serie =>
        refine Or.inr ⟨serie, ?_⟩
        simp [getOrConstructValue, hentry, hf, hne, hlook, htok, hsh, hvars, hloop, heval, hser]

/-- Claim C1, witness: the amended theorem applied to the worked example,
whose parsed variables are `[X, Y]` with last component `Y`. -/
theorem claim_C1_witness :
    (∃ e, getOrConstructValue 3 dfEx "Z" (some regEx) [1999] = .error e) ∨
    (∃ s, getOrConstructValue 3 dfEx "Z" (some regEx) [1999] =
       .ok (s, strReplace "X + Y" "Y" ("(" ++ (resEx "Y").2 ++ ")"))) :=
  claim_C1_last_only_substitution 2 dfEx "Z" regEx [1999]
    [(Key.formula, some (EVal.str "X + Y"))] "X + Y"
    [Tok.var "X", Tok.plus, Tok.var "Y"] ["X"] "Y" resEx
    (by decide) (by decide) (by decide) (by decide) (by decide) (by decide) (by decide)

/-- Claim C8: when every registry variable resolves, the batch resolver
succeeds; the combined table holds, in registry order, the resolved column
of every variable not marked `drop` (and, when every non-dropped variable
resolves to an actual column, exactly one column per such variable, so
dropped variables are resolved yet excluded), and the formula map holds,
for every formula-bearing variable, its name with underscores replaced by
spaces mapped to its expanded formula. -/
theorem claim_C8_batch_resolution (fuel : Nat) (df : List Row) (years : List Int)
    (registry : Registry) (res : String → Serie × String)
    (hres : ∀ p ∈ registry,
      getOrConstructValue fuel df p.1 (some registry) years = .ok (res p.1))
    (hnd : ∀ p ∈ registry,
      truthyOpt (entryGet p.2 Key.drop) = false → (res p.1).1 ≠ Serie.empty) :
    getOrConstructData fuel df registry years = .ok
      (registry.filterMap (fun p =>
         if truthyOpt (entryGet p.2 Key.drop) then none else serieColOpt (res p.1).1),
       registry.filterMap (fun p =>
         if (entryGet p.2 Key.formula).isSome then
           some (strReplace p.1 "_" " ", (res p.1).2)
         else none)) ∧
    (registry.filterMap (fun p =>
       if truthyOpt (entryGet p.2 Key.drop) then none else serieColOpt (res p.1).1)).length =
      (registry.filter (fun p => !truthyOpt (entryGet p.2 Key.drop))).length := by
  constructor
  · have h := getOrConstructDataAux_spec fuel df registry years res registry [] [] hres
    simpa [getOrConstructData] using h
  · exact filterMap_cols_length res registry hnd

/-- Claim C8, witness: over `regB`, variable `A` contributes a column, the
dropped variable `B` is resolved (the derived `C_net` uses it) but
contributes no column, and `C_net` is recorded in the formula map under the
name `C net`. -/
theorem claim_C8_witness :
    getOrConstructData 2 dfEx regB [1999] =
      .ok ([("A", [(1999, 10)]), ("C_net", [(1999, 15)])], [("C net", "A + (B)")]) := by
  have h := claim_C8_batch_resolution 2 dfEx [1999] regB resB (by decide) (by decide)
  rw [h.1]
  rfl

end CnExtract
